import Mathlib

/-!
Shallow embedding of `nb_crossref.py` (the cross-reference relabeling and
consistency-checking engine for Jupyter notebook files).

Documents are ordered lists of lines; a line is a `List Char`.  Each Python
`re.sub` call is modelled by a left-to-right scanner (`subF`) parameterised by
a deterministic matcher for the concrete pattern; every pattern used by the
program is deterministic (each greedy character class is bounded by a
character it excludes, and the one-step backtrack before an escaped quote is
resolved by peeling a single trailing backslash), so the matchers below
implement exactly the Python regex behaviour on these patterns.
`re.findall` is modelled by `findF` with the same matchers.
-/

/-- The backtick character, used by the negative lookbehind of the Markdown
footnote patterns. -/
def backtickCh : Char := Char.ofNat 96

/-- The opening brace character. -/
def obr : Char := Char.ofNat 123

/-- The closing brace character. -/
def cbr : Char := Char.ofNat 125

/-- Python `\s` on the ASCII range (space, tab, newline, CR, FF, VT). -/
def isPySpace (c : Char) : Bool :=
  c = ' ' || c = Char.ofNat 9 || c = Char.ofNat 10 || c = Char.ofNat 13 ||
    c = Char.ofNat 11 || c = Char.ofNat 12

/-- Python `str.isdigit` on the ASCII range: nonempty and all decimal digits. -/
def isDigits (l : List Char) : Bool :=
  !l.isEmpty && l.all Char.isDigit

/-- Python `int(...)` on a string of decimal digits. -/
def strToNat (l : List Char) : Nat :=
  l.foldl (fun a c => a * 10 + (c.toNat - 48)) 0

/-- Python `str(n)` for a natural number. -/
def natToStr (n : Nat) : List Char := (Nat.repr n).data

/-- Match a literal character sequence at the head of the input, returning the
rest on success. -/
def stripLit : List Char → List Char → Option (List Char)
  | [], s => some s
  | _ :: _, [] => none
  | p :: ps, c :: cs => if c = p then stripLit ps cs else none

/-- Boolean test for a literal leading segment. -/
def leadsWith : List Char → List Char → Bool
  | [], _ => true
  | _ :: _, [] => false
  | p :: ps, c :: cs => decide (c = p) && leadsWith ps cs

/-- `remove_duplicates`: drop repeats, keeping the first occurrence of each
element (the Python helper built on a `seen` set). -/
def removeDupsAux (seen : List (List Char)) : List (List Char) → List (List Char)
  | [] => []
  | x :: xs =>
    if x ∈ seen then removeDupsAux seen xs else x :: removeDupsAux (x :: seen) xs

/-- `remove_duplicates` from the Python source. -/
def removeDuplicates (l : List (List Char)) : List (List Char) := removeDupsAux [] l

/-- The repeats collector used for the duplicate checks: every occurrence after
the first of each element, in scan order. -/
def dupsAux (seen : List (List Char)) : List (List Char) → List (List Char)
  | [] => []
  | x :: xs =>
    if x ∈ seen then x :: dupsAux seen xs else dupsAux (x :: seen) xs

/-- `pairwise` from the Python source: successive overlapping pairs. -/
def pairsOf (l : List (List Char)) : List (List Char × List Char) := l.zip l.tail

/-- Join with `", "` as Python `", ".join(...)`. -/
def joinComma (ls : List (List Char)) : List Char :=
  List.intercalate (", ".data) ls

/-- Format one wrongly-ordered pair as Python `f"({i}, {j})"`. -/
def fmtPair (p : List Char × List Char) : List Char :=
  "(".data ++ p.1 ++ ", ".data ++ p.2 ++ ")".data

/-! ### The scanner for `re.sub` / `re.findall`

`subF` walks the line once, trying the matcher at every position exactly as
`re.sub` tries the pattern at every start position, replacing non-overlapping
leftmost matches and continuing after each match.  The character preceding the
current position in the original string is threaded through for the negative
lookbehind `(?<!` + backtick + `)`; every pattern of the program ends in a
fixed literal character, passed as `endC`, which is therefore the character
preceding the position that follows a match. -/

/-- One `re.sub` pass, fuel-based so that it reduces in the kernel.
`matchF prev s` returns the capture and the rest of the line after the match. -/
def subF {α : Type} (matchF : Option Char → List Char → Option (α × List Char))
    (render : α → List Char) (endC : Char) :
    Nat → Option Char → List Char → List Char
  | 0, _, s => s
  | _ + 1, _, [] => []
  | n + 1, prev, c :: cs =>
    match matchF prev (c :: cs) with
    | some (cap, rest) => render cap ++ subF matchF render endC n (some endC) rest
    | none => c :: subF matchF render endC n (some c) cs

/-- `re.sub` with the given deterministic matcher and replacement builder. -/
def pySub {α : Type} (matchF : Option Char → List Char → Option (α × List Char))
    (render : α → List Char) (endC : Char) (line : List Char) : List Char :=
  subF matchF render endC (line.length + 1) none line

/-- One `re.findall` pass collecting the captures of the leftmost
non-overlapping matches. -/
def findF {α : Type} (matchF : Option Char → List Char → Option (α × List Char))
    (endC : Char) : Nat → Option Char → List Char → List α
  | 0, _, _ => []
  | _ + 1, _, [] => []
  | n + 1, prev, c :: cs =>
    match matchF prev (c :: cs) with
    | some (cap, rest) => cap :: findF matchF endC n (some endC) rest
    | none => findF matchF endC n (some c) cs

/-- `re.findall` with the given matcher. -/
def pyFindall {α : Type} (matchF : Option Char → List Char → Option (α × List Char))
    (endC : Char) (line : List Char) : List α :=
  findF matchF endC (line.length + 1) none line

/-! ### Matchers for the concrete patterns -/

/-- Matcher for the Markdown footnote definition pattern
`(?<!` + backtick + `)\[\^([^\]]+)\]\s*:` — `[^LABEL]`, optional whitespace,
then a colon, not immediately preceded by a backtick. -/
def footDefMatch (prev : Option Char) (s : List Char) : Option (List Char × List Char) :=
  if prev = some backtickCh then none
  else
    match stripLit ("[^".data) s with
    | none => none
    | some s1 =>
      if s1.takeWhile (fun c => c ≠ ']') = [] then none
      else
        match s1.dropWhile (fun c => c ≠ ']') with
        | [] => none
        | c :: s3 =>
          if c = ']' then
            match (s3.dropWhile isPySpace) with
            | [] => none
            | c2 :: s5 =>
              if c2 = ':' then some (s1.takeWhile (fun c => c ≠ ']'), s5) else none
          else none

/-- Matcher for the Markdown footnote reference pattern
`(?<!` + backtick + `)\[\^([^\]]+)\]`. -/
def footRefMatch (prev : Option Char) (s : List Char) : Option (List Char × List Char) :=
  if prev = some backtickCh then none
  else
    match stripLit ("[^".data) s with
    | none => none
    | some s1 =>
      if s1.takeWhile (fun c => c ≠ ']') = [] then none
      else
        match s1.dropWhile (fun c => c ≠ ']') with
        | [] => none
        | c :: s3 =>
          if c = ']' then some (s1.takeWhile (fun c => c ≠ ']'), s3) else none

/-- The capture piece `([^\"]+)\\\"`: a maximal run of non-quote characters
must end in the literal backslash that precedes the escaped quote, so the
capture is that run with its trailing backslash removed. -/
def capQuoted (s : List Char) : Option (List Char × List Char) :=
  let r := s.takeWhile (fun c => c ≠ '\"')
  match s.dropWhile (fun c => c ≠ '\"') with
  | [] => none
  | c :: s3 =>
    if c = '\"' then
      if r.getLast? = some '\\' && decide (2 ≤ r.length) then some (r.dropLast, s3)
      else none
    else none

/-- Matcher for the current HTML footnote reference form (quotes JSON-escaped):
`<a name=\"cite_ref-L\"></a>[<sup>[L]</sup>](#cite_note-L)` with the three
occurrences of the captured label tied together by backreferences. -/
def htmlRefMatch (_ : Option Char) (s : List Char) : Option (List Char × List Char) := do
  let s1 ← stripLit ("<a name=\\\"cite_ref-".data) s
  let (cap, s2) ← capQuoted s1
  let s3 ← stripLit ("></a>[<sup>[".data) s2
  let s4 ← stripLit cap s3
  let s5 ← stripLit ("]</sup>](#cite_note-".data) s4
  let s6 ← stripLit cap s5
  let s7 ← stripLit (")".data) s6
  some (cap, s7)

/-- Matcher for the current HTML footnote definition form:
`<a name=\"cite_note-L\"></a>L.&nbsp;[^](#cite_ref-L)`. -/
def htmlDefMatch (_ : Option Char) (s : List Char) : Option (List Char × List Char) := do
  let s1 ← stripLit ("<a name=\\\"cite_note-".data) s
  let (cap, s2) ← capQuoted s1
  let s3 ← stripLit ("></a>".data) s2
  let s4 ← stripLit cap s3
  let s5 ← stripLit (".&nbsp;[^](#cite_ref-".data) s4
  let s6 ← stripLit cap s5
  let s7 ← stripLit (")".data) s6
  some (cap, s7)

/-- Matcher for the legacy HTML footnote reference form
`[<sup id=\"cite_ref-L\">[L]</sup>](#cite_note-L)`. -/
def oldRefMatch (_ : Option Char) (s : List Char) : Option (List Char × List Char) := do
  let s1 ← stripLit ("[<sup id=\\\"cite_ref-".data) s
  let (cap, s2) ← capQuoted s1
  let s3 ← stripLit (">[".data) s2
  let s4 ← stripLit cap s3
  let s5 ← stripLit ("]</sup>](#cite_note-".data) s4
  let s6 ← stripLit cap s5
  let s7 ← stripLit (")".data) s6
  some (cap, s7)

/-- Matcher for the legacy HTML footnote definition form
`<span id=\"cite_note-L\">L.</span> [^](#cite_ref-L)`. -/
def oldDefMatch (_ : Option Char) (s : List Char) : Option (List Char × List Char) := do
  let s1 ← stripLit ("<span id=\\\"cite_note-".data) s
  let (cap, s2) ← capQuoted s1
  let s3 ← stripLit (">".data) s2
  let s4 ← stripLit cap s3
  let s5 ← stripLit (".</span> [^](#cite_ref-".data) s4
  let s6 ← stripLit cap s5
  let s7 ← stripLit (")".data) s6
  some (cap, s7)

/-- The intermediate markup token `{{{{KIND LABEL}}}}` (braces written via
`obr`/`cbr`). -/
def tokenOf (kind : List Char) (cap : List Char) : List Char :=
  [obr, obr, obr, obr] ++ kind ++ [' '] ++ cap ++ [cbr, cbr, cbr, cbr]

/-- Matcher for an intermediate markup token of the given kind:
four opening braces, the kind, a space, a nonempty brace-free label, four
closing braces. -/
def tokenMatch (kind : List Char) (_ : Option Char) (s : List Char) :
    Option (List Char × List Char) := do
  let s1 ← stripLit ([obr, obr, obr, obr] ++ kind ++ [' ']) s
  let cap := s1.takeWhile (fun c => c ≠ cbr)
  if cap = [] then none
  else do
    let s2 ← stripLit [cbr, cbr, cbr, cbr] (s1.dropWhile (fun c => c ≠ cbr))
    some (cap, s2)

/-- Matcher for the MathJax tag pattern `\\\\tag\{([^}]+)\}` (two literal
backslashes as stored inside a JSON notebook cell). -/
def mdTagMatch (_ : Option Char) (s : List Char) : Option (List Char × List Char) := do
  let s1 ← stripLit ("\\\\tag".data ++ [obr]) s
  let cap := s1.takeWhile (fun c => c ≠ cbr)
  if cap = [] then none
  else
    match s1.dropWhile (fun c => c ≠ cbr) with
    | c :: s2 => if c = cbr then some (cap, s2) else none
    | [] => none

/-- Matcher for the MathJax eqref pattern `\\\\eqref\{([^}]+)\}`. -/
def mdEqrefMatch (_ : Option Char) (s : List Char) : Option (List Char × List Char) := do
  let s1 ← stripLit ("\\\\eqref".data ++ [obr]) s
  let cap := s1.takeWhile (fun c => c ≠ cbr)
  if cap = [] then none
  else
    match s1.dropWhile (fun c => c ≠ cbr) with
    | c :: s2 => if c = cbr then some (cap, s2) else none
    | [] => none

/-- Matcher for the rendered HTML eqref form `<!-- eqref -->\(([^)]+)\)`. -/
def htmlEqrefMatch (_ : Option Char) (s : List Char) : Option (List Char × List Char) := do
  let s1 ← stripLit ("<!-- eqref -->(".data) s
  let cap := s1.takeWhile (fun c => c ≠ ')')
  if cap = [] then none
  else
    match s1.dropWhile (fun c => c ≠ ')') with
    | [] => none
    | c :: s2 => if c = ')' then some (cap, s2) else none

/-! ### The Label Relabeler (`relabel_tags`) -/

/-- The label map: an association list from original label text to the
assigned integer string; `mapInsert` has Python `dict` assignment semantics
(overwrite an existing binding, else append). -/
def mapInsert (m : List (List Char × List Char)) (k v : List Char) :
    List (List Char × List Char) :=
  if m.any (fun p => p.1 = k) then m.map (fun p => if p.1 = k then (k, v) else p)
  else m ++ [(k, v)]

/-- Dictionary lookup on the label map. -/
def dlookup : List (List Char × List Char) → List Char → Option (List Char)
  | [], _ => none
  | p :: ps, k => if p.1 = k then some p.2 else dlookup ps k

/-- The labels captured by `re.findall` of `{{{{TAG1 ([^}]+)}}}}` on one line. -/
def findAllTok (kind : List Char) (line : List Char) : List (List Char) :=
  pyFindall (tokenMatch kind) cbr line

/-- All tag1 labels of a document in scan order (line order, left to right). -/
def scanLabels (t1 : List Char) (lines : List (List Char)) : List (List Char) :=
  (lines.map (findAllTok t1)).flatten

/-- One step of the map-building loop of `relabel_tags`: `n += 1;
label_map[i] = str(n)`. -/
def assignStep (a : Nat × List (List Char × List Char)) (l : List Char) :
    Nat × List (List Char × List Char) :=
  (a.1 + 1, mapInsert a.2 l (natToStr (a.1 + 1)))

/-- The per-line part of the map-building loop of `relabel_tags`. -/
def labelScanLine (t1 : List Char) (a : Nat × List (List Char × List Char))
    (line : List Char) : Nat × List (List Char × List Char) :=
  (findAllTok t1 line).foldl assignStep a

/-- The label map built by `relabel_tags` for the given definition-scan tag. -/
def labelMapOf (t1 : List Char) (lines : List (List Char)) :
    List (List Char × List Char) :=
  (lines.foldl (labelScanLine t1) (0, [])).2

/-- Matcher for the combined rewrite pattern
`{{{{(TAG1|TAG2) ([^}]+)}}}}`; the first alternative is tried first, exactly
as the regex alternation does. -/
def relabelMatch (t1 t2 : List Char) (_ : Option Char) (s : List Char) :
    Option ((List Char × List Char) × List Char) := do
  let s1 ← stripLit [obr, obr, obr, obr] s
  let (tag, s2) ←
    match stripLit (t1 ++ [' ']) s1 with
    | some r => some (t1, r)
    | none =>
      match stripLit (t2 ++ [' ']) s1 with
      | some r => some (t2, r)
      | none => none
  let cap := s2.takeWhile (fun c => c ≠ cbr)
  if cap = [] then none
  else do
    let s3 ← stripLit [cbr, cbr, cbr, cbr] (s2.dropWhile (fun c => c ≠ cbr))
    some ((tag, cap), s3)

/-- `relabel_func`: rebuild the token, replacing the label by its mapped
integer string when it is a key of the label map. -/
def relabelRender (m : List (List Char × List Char)) (tc : List Char × List Char) :
    List Char :=
  let name := match dlookup m tc.2 with
    | some v => v
    | none => tc.2
  [obr, obr, obr, obr] ++ tc.1 ++ [' '] ++ name ++ [cbr, cbr, cbr, cbr]

/-- `relabel_tags`: build the label map from the tag1 occurrences; if it is
empty return the input unchanged, else rewrite every tag1/tag2 token. -/
def relabelTags (lines : List (List Char)) (t1 t2 : List Char) : List (List Char) :=
  let m := labelMapOf t1 lines
  if m = [] then lines
  else lines.map (pySub (relabelMatch t1 t2) (relabelRender m) cbr)

/-! ### The Footnote Transformer (`make_footnotes`) -/

/-- The tag name `TO_FOOTNOTE` (footnote references). -/
def toFootTag : List Char := "TO_FOOTNOTE".data

/-- The tag name `FOOTNOTE` (footnote definitions). -/
def footTag : List Char := "FOOTNOTE".data

/-- Stage 1 of `make_footnotes` on one line: the six substitutions, in source
order (Markdown definition, Markdown reference, current HTML reference,
current HTML definition, legacy HTML reference, legacy HTML definition). -/
def canonFoot (line : List Char) : List Char :=
  let l1 := pySub footDefMatch (tokenOf footTag) ':' line
  let l2 := pySub footRefMatch (tokenOf toFootTag) ']' l1
  let l3 := pySub htmlRefMatch (tokenOf toFootTag) ')' l2
  let l4 := pySub htmlDefMatch (tokenOf footTag) ')' l3
  let l5 := pySub oldRefMatch (tokenOf toFootTag) ')' l4
  pySub oldDefMatch (tokenOf footTag) ')' l5

/-- Replacement for `{{{{TO_FOOTNOTE L}}}}`: the anchored superscript link
(with JSON-escaped quotes, as the replacement template writes them). -/
def renderRefHtml (cap : List Char) : List Char :=
  "<a name=\\\"cite_ref-".data ++ cap ++ "\\\"></a>[<sup>[".data ++ cap ++
    "]</sup>](#cite_note-".data ++ cap ++ ")".data

/-- Replacement for `{{{{FOOTNOTE L}}}}`: the anchored footnote text prefix
with the backlink. -/
def renderDefHtml (cap : List Char) : List Char :=
  "<a name=\\\"cite_note-".data ++ cap ++ "\\\"></a>".data ++ cap ++
    ".&nbsp;[^](#cite_ref-".data ++ cap ++ ")".data

/-- Stage 3 of `make_footnotes` on one line: render both token kinds to HTML. -/
def renderFootLine (line : List Char) : List Char :=
  pySub (tokenMatch footTag) renderDefHtml cbr
    (pySub (tokenMatch toFootTag) renderRefHtml cbr line)

/-- Stage 1 output of `make_footnotes`. -/
def mfCanon (lines : List (List Char)) : List (List Char) := lines.map canonFoot

/-- Stage 2 output of `make_footnotes`: relabel with tag1 `TO_FOOTNOTE` and
tag2 `FOOTNOTE` (the call `relabel_tags(output_lines, "TO_FOOTNOTE",
"FOOTNOTE")` — the scan that orders the labels runs over the reference tag). -/
def mfRelabeled (lines : List (List Char)) : List (List Char) :=
  relabelTags (mfCanon lines) toFootTag footTag

/-- All reference labels of the relabeled document, duplicates kept. -/
def mfCites (lines : List (List Char)) : List (List Char) :=
  ((mfRelabeled lines).map (findAllTok toFootTag)).flatten

/-- All definition labels of the relabeled document, duplicates kept. -/
def mfFootnotes (lines : List (List Char)) : List (List Char) :=
  ((mfRelabeled lines).map (findAllTok footTag)).flatten

/-- `cites_not_found`: deduplicated references without a definition. -/
def mfCNF (lines : List (List Char)) : List (List Char) :=
  (removeDuplicates (mfCites lines)).filter (fun i => decide (i ∉ mfFootnotes lines))

/-- `footnotes_not_found`: deduplicated definitions never referenced. -/
def mfFNF (lines : List (List Char)) : List (List Char) :=
  (removeDuplicates (mfFootnotes lines)).filter (fun i => decide (i ∉ mfCites lines))

/-- `cites_duplicates`. -/
def mfCdup (lines : List (List Char)) : List (List Char) := dupsAux [] (mfCites lines)

/-- `footnotes_duplicates`. -/
def mfFdup (lines : List (List Char)) : List (List Char) :=
  dupsAux [] (mfFootnotes lines)

/-- The out-of-order test on one adjacent pair of definition labels:
both purely numeric and the earlier strictly greater than the later. -/
def woPred (p : List Char × List Char) : Bool :=
  isDigits p.1 && isDigits p.2 && decide (strToNat p.2 < strToNat p.1)

/-- `wrongly_ordered`: the adjacent definition-label pairs failing the order
check, in document order. -/
def mfWrong (lines : List (List Char)) : List (List Char × List Char) :=
  (pairsOf (mfFootnotes lines)).filter woPred

/-- Error line `Footnotes not found: ...`. -/
def notFoundMsg (ls : List (List Char)) : List Char :=
  "Footnotes not found: ".data ++ joinComma ls

/-- Error line `Footnotes not referenced: ...`. -/
def notRefMsg (ls : List (List Char)) : List Char :=
  "Footnotes not referenced: ".data ++ joinComma ls

/-- Error line `Duplicated references of footnotes: ...`. -/
def dupRefMsg (ls : List (List Char)) : List Char :=
  "Duplicated references of footnotes: ".data ++ joinComma ls

/-- Error line `Duplicated footnotes: ...`. -/
def dupFnMsg (ls : List (List Char)) : List Char :=
  "Duplicated footnotes: ".data ++ joinComma ls

/-- Error line `Wrongly ordered footnotes: ...`, listing every failing pair. -/
def wrongMsg (ps : List (List Char × List Char)) : List Char :=
  "Wrongly ordered footnotes: ".data ++ joinComma (ps.map fmtPair)

/-- The errors appended by `make_footnotes`, in source order of the five
checks. -/
def mfErrors (lines : List (List Char)) : List (List Char) :=
  (if mfCNF lines ≠ [] then [notFoundMsg (mfCNF lines)] else []) ++
  (if mfFNF lines ≠ [] then [notRefMsg (mfFNF lines)] else []) ++
  (if mfCdup lines ≠ [] then [dupRefMsg (mfCdup lines)] else []) ++
  (if mfFdup lines ≠ [] then [dupFnMsg (mfFdup lines)] else []) ++
  (if mfWrong lines ≠ [] then [wrongMsg (mfWrong lines)] else [])

/-- `make_footnotes`: the rendered output lines together with the error lines
it appends to the caller's error list. -/
def makeFootnotes (lines : List (List Char)) : List (List Char) × List (List Char) :=
  ((mfRelabeled lines).map renderFootLine, mfErrors lines)

/-! ### The Equation-Reference Transformer (`make_eqrefs`) -/

/-- The tag name `TAG` (equation tags). -/
def tagTag : List Char := "TAG".data

/-- The tag name `EQREF` (equation references). -/
def eqrefTag : List Char := "EQREF".data

/-- Stage 1 of `make_eqrefs` on one line: the three substitutions in source
order. -/
def canonEq (line : List Char) : List Char :=
  let l1 := pySub mdTagMatch (tokenOf tagTag) cbr line
  let l2 := pySub mdEqrefMatch (tokenOf eqrefTag) cbr l1
  pySub htmlEqrefMatch (tokenOf eqrefTag) ')' l2

/-- Replacement for `{{{{TAG L}}}}`: back to the MathJax form `\\tag{L}`. -/
def renderTag (cap : List Char) : List Char :=
  "\\\\tag".data ++ [obr] ++ cap ++ [cbr]

/-- Replacement for `{{{{EQREF L}}}}`: the HTML comment form. -/
def renderEqref (cap : List Char) : List Char :=
  "<!-- eqref -->(".data ++ cap ++ ")".data

/-- Stage 3 of `make_eqrefs` on one line. -/
def renderEqLine (line : List Char) : List Char :=
  pySub (tokenMatch eqrefTag) renderEqref cbr
    (pySub (tokenMatch tagTag) renderTag cbr line)

/-- Stage 1 output of `make_eqrefs`. -/
def meCanon (lines : List (List Char)) : List (List Char) := lines.map canonEq

/-- Stage 2 output of `make_eqrefs`: relabel with tag1 `TAG`, tag2 `EQREF`. -/
def meRelabeled (lines : List (List Char)) : List (List Char) :=
  relabelTags (meCanon lines) tagTag eqrefTag

/-- All tag labels of the relabeled document, duplicates kept. -/
def meTags (lines : List (List Char)) : List (List Char) :=
  ((meRelabeled lines).map (findAllTok tagTag)).flatten

/-- All eqref labels of the relabeled document, duplicates kept. -/
def meEqrefs (lines : List (List Char)) : List (List Char) :=
  ((meRelabeled lines).map (findAllTok eqrefTag)).flatten

/-- `eqrefs_not_found`. -/
def meENF (lines : List (List Char)) : List (List Char) :=
  (removeDuplicates (meEqrefs lines)).filter (fun i => decide (i ∉ meTags lines))

/-- `tags_duplicates`. -/
def meTdup (lines : List (List Char)) : List (List Char) := dupsAux [] (meTags lines)

/-- Error line `Tags not found: ...`. -/
def tagsNotFoundMsg (ls : List (List Char)) : List Char :=
  "Tags not found: ".data ++ joinComma ls

/-- Error line `Duplicated tags: ...`. -/
def dupTagsMsg (ls : List (List Char)) : List Char :=
  "Duplicated tags: ".data ++ joinComma ls

/-- The errors appended by `make_eqrefs`. -/
def meErrors (lines : List (List Char)) : List (List Char) :=
  (if meENF lines ≠ [] then [tagsNotFoundMsg (meENF lines)] else []) ++
  (if meTdup lines ≠ [] then [dupTagsMsg (meTdup lines)] else [])

/-- `make_eqrefs`: the rendered output lines together with the errors it
appends. -/
def makeEqrefs (lines : List (List Char)) : List (List Char) × List (List Char) :=
  ((meRelabeled lines).map renderEqLine, meErrors lines)

/-- Per-document orchestration, as in `process_file`: footnotes first, then
eqrefs on their output, errors concatenated in that order. -/
def processDocument (lines : List (List Char)) :
    List (List Char) × List (List Char) :=
  let f := makeFootnotes lines
  let e := makeEqrefs f.1
  (e.1, f.2 ++ e.2)

/-! ### Concrete documents used by the counterexamples and witnesses -/

/-- Document with references `a`, `b` (in that order) and definitions `b`,
`a` (in that order): the scenario of the spec with references preceding the
definitions. -/
def exDoc : List (List Char) :=
  [ "[^a]".data, "[^b]".data, "[^b]: B".data, "[^a]: A".data]

/-- Document with a single footnote reference and no definition. -/
def refsOnlyDoc : List (List Char) := [ "[^x]".data]

/-- One line with the reference-tag tokens `a`, `a`, `b`, exercising the
duplicate-label behaviour of the relabeler's map construction. -/
def dupLabelLines : List (List Char) :=
  [tokenOf toFootTag ("a".data) ++ tokenOf toFootTag ("a".data) ++
    tokenOf toFootTag ("b".data)]

/-- Document with two references to the undefined label `b`. -/
def twoRefsDoc : List (List Char) := [ "[^b]".data, "[^b]".data]

/-- Document in which `\tag{1}` appears twice. -/
def twoTagsDoc : List (List Char) :=
  [ "\\\\tag\x7b1\x7d".data, "\\\\tag\x7b1\x7d".data]

/-- Document whose footnote reference sits inside a `\tag{...}` argument, so
the first pass's footnote rendering is swallowed into the equation tag. -/
def tagRefDoc : List (List Char) :=
  [ "\\\\tag\x7b[^a]\x7d".data, "[^a]: x".data]

/-- The zero-based position of the last occurrence of `l` in a list of labels,
used to characterise the final value a label receives from the map-building
loop (every occurrence increments the counter and overwrites the binding). -/
def lastIdx : List (List Char) → List Char → Option Nat
  | [], _ => none
  | x :: xs, l =>
    match lastIdx xs l with
    | some i => some (i + 1)
    | none => if x = l then some 0 else none

/-! ### Helper lemmas -/

theorem stripLit_eq_some (pat : List Char) : ∀ s r : List Char,
    stripLit pat s = some r ↔ s = pat ++ r := by
  induction pat with
  | nil => intro s r; simp [stripLit]
  | cons p ps ih =>
    intro s r
    cases s with
    | nil => simp [stripLit]
    | cons c cs =>
      by_cases h : c = p <;> simp [stripLit, h, ih]

theorem takeWhile_prefix_exact (p : Char → Bool) (l r : List Char)
    (x : Char) (hl : ∀ c ∈ l, p c = true) (hx : p x = false) :
    (l ++ x :: r).takeWhile p = l ∧ (l ++ x :: r).dropWhile p = x :: r := by
  induction l with
  | nil => simp [List.takeWhile_cons, List.dropWhile_cons, hx]
  | cons a as ih =>
    have ha := hl a (by simp)
    have h2 := ih (fun c hc => hl c (by simp [hc]))
    simp [List.takeWhile_cons, List.dropWhile_cons, ha, h2.1, h2.2]

theorem dlookup_map_ne (m : List (List Char × List Char)) (k v l : List Char)
    (h : l ≠ k) :
    dlookup (m.map (fun p => if p.1 = k then (k, v) else p)) l = dlookup m l := by
  induction m with
  | nil => rfl
  | cons q qs ih =>
    by_cases hq : q.1 = k
    · have hkl : k ≠ l := fun h2 => h h2.symm
      have hql : q.1 ≠ l := by rw [hq]; exact hkl
      simp [dlookup, hq, hkl, hql, ih]
    · by_cases hl : q.1 = l
      · simp [dlookup, hq, hl, h]
      · simp [dlookup, hq, hl, ih]

theorem dlookup_map_self (m : List (List Char × List Char)) (k v : List Char)
    (hex : ∃ p ∈ m, p.1 = k) :
    dlookup (m.map (fun p => if p.1 = k then (k, v) else p)) k = some v := by
  induction m with
  | nil => simp at hex
  | cons q qs ih =>
    by_cases hq : q.1 = k
    · simp [dlookup, hq]
    · have hex2 : ∃ p ∈ qs, p.1 = k := by
        rcases hex with ⟨p, hp, hpk⟩
        rcases List.mem_cons.mp hp with h1 | h1
        · exact absurd (h1 ▸ hpk) hq
        · exact ⟨p, h1, hpk⟩
      simp [dlookup, hq, ih hex2]

theorem dlookup_append_single (m : List (List Char × List Char)) (k v l : List Char)
    (hall : ∀ p ∈ m, p.1 ≠ k) :
    dlookup (m ++ [(k, v)]) l = if l = k then some v else dlookup m l := by
  induction m with
  | nil =>
    by_cases hl : l = k
    · simp [dlookup, hl]
    · have : k ≠ l := fun h2 => hl h2.symm
      simp [dlookup, this, hl]
  | cons q qs ih =>
    have hq : q.1 ≠ k := hall q (by simp)
    have hall2 : ∀ p ∈ qs, p.1 ≠ k := fun p hp => hall p (by simp [hp])
    by_cases hl : q.1 = l
    · have hlk : l ≠ k := fun hc => hq (hl.trans hc)
      simp [dlookup, hl, hlk]
    · simp [dlookup, hl, ih hall2]

theorem dlookup_mapInsert (m : List (List Char × List Char)) (k v l : List Char) :
    dlookup (mapInsert m k v) l = if l = k then some v else dlookup m l := by
  unfold mapInsert
  by_cases hany : m.any (fun p => decide (p.1 = k)) = true
  · rw [if_pos hany]
    by_cases hl : l = k
    · subst hl
      rw [if_pos rfl]
      exact dlookup_map_self m l v (by simpa using hany)
    · rw [if_neg hl]
      exact dlookup_map_ne m k v l hl
  · rw [if_neg hany]
    refine dlookup_append_single m k v l ?_
    intro p hp
    have := List.any_eq_true.not.mp hany
    push_neg at this
    have h2 := this p hp
    simpa using h2

theorem foldl_assign_lookup (labels : List (List Char)) :
    ∀ (n : Nat) (m : List (List Char × List Char)) (l : List Char),
    dlookup ((labels.foldl assignStep (n, m)).2) l =
      (match lastIdx labels l with
        | some i => some (natToStr (n + i + 1))
        | none => dlookup m l) := by
  induction labels with
  | nil => intro n m l; simp [lastIdx]
  | cons x xs ih =>
    intro n m l
    simp only [List.foldl_cons]
    have hstep : assignStep (n, m) x = (n + 1, mapInsert m x (natToStr (n + 1))) := rfl
    rw [hstep, ih]
    cases h : lastIdx xs l with
    | some i =>
      simp only [lastIdx, h]
      have : n + 1 + i + 1 = n + (i + 1) + 1 := by omega
      rw [this]
    | none =>
      by_cases hx : x = l
      · simp only [lastIdx, h, hx, if_pos rfl]
        rw [dlookup_mapInsert]
        simp [hx]
      · have hlx : l ≠ x := fun h2 => hx h2.symm
        simp only [lastIdx, h, if_neg hx]
        rw [dlookup_mapInsert, if_neg hlx]

theorem labelMapOf_eq_fold (t1 : List Char) (lines : List (List Char)) :
    ∀ a : Nat × List (List Char × List Char),
    lines.foldl (labelScanLine t1) a = (scanLabels t1 lines).foldl assignStep a := by
  induction lines with
  | nil => intro a; simp [scanLabels]
  | cons ln ls ih =>
    intro a
    simp only [List.foldl_cons, scanLabels, List.map_cons, List.flatten_cons,
      List.foldl_append]
    rw [ih]
    rfl

theorem lastIdx_eq_none (l : List (List Char)) (a : List Char) :
    lastIdx l a = none ↔ a ∉ l := by
  induction l with
  | nil => simp [lastIdx]
  | cons x xs ih =>
    simp only [lastIdx, List.mem_cons]
    cases h : lastIdx xs a with
    | some i =>
      have : a ∈ xs := by
        by_contra hc
        rw [ih.mpr hc] at h
        exact Option.noConfusion h
      simp [this]
    | none =>
      have hnot : a ∉ xs := ih.mp h
      by_cases hx : x = a
      · simp [hx]
      · have hax : ¬a = x := fun h2 => hx h2.symm
        simp [hx, hnot, hax]

theorem lastIdx_get_of_nodup (l : List (List Char)) (h : l.Nodup) :
    ∀ (i : Nat) (hi : i < l.length), lastIdx l (l.get ⟨i, hi⟩) = some i := by
  induction l with
  | nil => intro i hi; exact absurd hi (by simp)
  | cons x xs ih =>
    intro i hi
    cases i with
    | zero =>
      have hx : x ∉ xs := (List.nodup_cons.mp h).1
      simp only [List.get]
      rw [lastIdx]
      rw [(lastIdx_eq_none xs x).mpr hx]
      simp
    | succ j =>
      have hj : j < xs.length := by simpa using hi
      have := ih (List.nodup_cons.mp h).2 j hj
      simp only [List.get]
      rw [lastIdx, this]

theorem relabelTags_length (lines : List (List Char)) (t1 t2 : List Char) :
    (relabelTags lines t1 t2).length = lines.length := by
  unfold relabelTags
  by_cases h : labelMapOf t1 lines = []
  · simp [h]
  · simp [h]

theorem wrongMsg_head (ps : List (List Char × List Char)) :
    ∃ t, wrongMsg ps = 'W' :: t := ⟨_, rfl⟩

theorem notFoundMsg_head (ls : List (List Char)) :
    ∃ t, notFoundMsg ls = 'F' :: t := ⟨_, rfl⟩

theorem notRefMsg_head (ls : List (List Char)) :
    ∃ t, notRefMsg ls = 'F' :: t := ⟨_, rfl⟩

theorem dupRefMsg_head (ls : List (List Char)) :
    ∃ t, dupRefMsg ls = 'D' :: t := ⟨_, rfl⟩

theorem dupFnMsg_head (ls : List (List Char)) :
    ∃ t, dupFnMsg ls = 'D' :: t := ⟨_, rfl⟩

theorem leadsWith_cons (p : Char) (pt : List Char) (c : Char) (ct : List Char) :
    leadsWith (p :: pt) (c :: ct) = (decide (c = p) && leadsWith pt ct) := rfl

theorem woPred_iff (p : List Char × List Char) :
    woPred p = true ↔
      (isDigits p.1 = true ∧ isDigits p.2 = true ∧ strToNat p.2 < strToNat p.1) := by
  simp [woPred, Bool.and_eq_true, decide_eq_true_eq, and_assoc]

theorem mfWrong_ne_nil_iff (lines : List (List Char)) :
    mfWrong lines ≠ [] ↔
      ∃ p ∈ pairsOf (mfFootnotes lines),
        isDigits p.1 = true ∧ isDigits p.2 = true ∧ strToNat p.2 < strToNat p.1 := by
  unfold mfWrong
  rw [Ne, List.filter_eq_nil_iff]
  constructor
  · intro h
    push_neg at h
    rcases h with ⟨p, hp, hpred⟩
    exact ⟨p, hp, (woPred_iff p).mp (by simpa using hpred)⟩
  · intro ⟨p, hp, hc⟩ hall
    exact absurd ((woPred_iff p).mpr hc) (by simpa using hall p hp)

theorem mfErrors_shape (lines : List (List Char)) :
    ∀ e ∈ mfErrors lines,
      (∃ t, e = 'F' :: t) ∨ (∃ t, e = 'D' :: t) ∨
        (mfWrong lines ≠ [] ∧ e = wrongMsg (mfWrong lines)) := by
  intro e he
  unfold mfErrors at he
  simp only [List.mem_append] at he
  rcases he with (((h | h) | h) | h) | h
  · by_cases hc : mfCNF lines ≠ []
    · rw [if_pos hc] at h
      simp only [List.mem_singleton] at h
      exact Or.inl (by rw [h]; exact notFoundMsg_head _)
    · rw [if_neg hc] at h; simp at h
  · by_cases hc : mfFNF lines ≠ []
    · rw [if_pos hc] at h
      simp only [List.mem_singleton] at h
      exact Or.inl (by rw [h]; exact notRefMsg_head _)
    · rw [if_neg hc] at h; simp at h
  · by_cases hc : mfCdup lines ≠ []
    · rw [if_pos hc] at h
      simp only [List.mem_singleton] at h
      exact Or.inr (Or.inl (by rw [h]; exact dupRefMsg_head _))
    · rw [if_neg hc] at h; simp at h
  · by_cases hc : mfFdup lines ≠ []
    · rw [if_pos hc] at h
      simp only [List.mem_singleton] at h
      exact Or.inr (Or.inl (by rw [h]; exact dupFnMsg_head _))
    · rw [if_neg hc] at h; simp at h
  · by_cases hc : mfWrong lines ≠ []
    · rw [if_pos hc] at h
      simp only [List.mem_singleton] at h
      exact Or.inr (Or.inr ⟨hc, h⟩)
    · rw [if_neg hc] at h; simp at h

/-- C8: the footnote transformer reports an `OutOfOrderDefinition` error
(the error line beginning `Wrongly ordered footnotes: `) iff some adjacent
pair of footnote-definition labels, in document order after relabeling, has
both members purely numeric with the earlier member's integer value exceeding
the later one's; and the single such error line is exactly the one listing
every failing pair in document order. -/
theorem out_of_order_iff (lines : List (List Char)) :
    ((∃ p ∈ pairsOf (mfFootnotes lines),
        isDigits p.1 = true ∧ isDigits p.2 = true ∧ strToNat p.2 < strToNat p.1) ↔
      wrongMsg (mfWrong lines) ∈ mfErrors lines) ∧
    (∀ e ∈ mfErrors lines,
      leadsWith ("Wrongly ordered footnotes: ".data) e = true →
        e = wrongMsg (mfWrong lines)) := by
  constructor
  · constructor
    · intro hex
      have hne : mfWrong lines ≠ [] := (mfWrong_ne_nil_iff lines).mpr hex
      unfold mfErrors
      refine List.mem_append_right _ ?_
      rw [if_pos hne]
      exact List.mem_singleton_self _
    · intro hmem
      rcases mfErrors_shape lines _ hmem with ⟨t, ht⟩ | ⟨t, ht⟩ | ⟨hne, _⟩
      · rcases wrongMsg_head (mfWrong lines) with ⟨t2, ht2⟩
        rw [ht2] at ht
        exact absurd (List.head_eq_of_cons_eq ht) (by decide)
      · rcases wrongMsg_head (mfWrong lines) with ⟨t2, ht2⟩
        rw [ht2] at ht
        exact absurd (List.head_eq_of_cons_eq ht) (by decide)
      · exact (mfWrong_ne_nil_iff lines).mp hne
  · intro e he hlw
    rcases mfErrors_shape lines e he with ⟨t, ht⟩ | ⟨t, ht⟩ | ⟨_, ht⟩
    · rw [ht] at hlw
      rw [show ("Wrongly ordered footnotes: ".data : List Char) =
        'W' :: "rongly ordered footnotes: ".data from rfl] at hlw
      rw [leadsWith_cons] at hlw
      rw [show (decide (('F' : Char) = 'W')) = false from rfl] at hlw
      simp at hlw
    · rw [ht] at hlw
      rw [show ("Wrongly ordered footnotes: ".data : List Char) =
        'W' :: "rongly ordered footnotes: ".data from rfl] at hlw
      rw [leadsWith_cons] at hlw
      rw [show (decide (('D' : Char) = 'W')) = false from rfl] at hlw
      simp at hlw
    · exact ht

/-- C10: the footnote definition recognizer matches at a position iff the text
there is `[^L]` with a nonempty bracket-free label, followed by optional
whitespace and then a colon, and the character before the position is not a
backtick; the capture is the label and the match consumes through the colon
(`canonFoot` replaces each such match by the `FOOTNOTE` token of the label). -/
theorem footnote_def_pattern (prev : Option Char) (s cap rest : List Char) :
    footDefMatch prev s = some (cap, rest) ↔
      (prev ≠ some backtickCh ∧ cap ≠ [] ∧ (∀ c ∈ cap, c ≠ ']') ∧
        ∃ ws, (∀ c ∈ ws, isPySpace c = true) ∧
          s = '[' :: '^' :: (cap ++ ']' :: (ws ++ ':' :: rest))) := by
  constructor
  · intro h
    unfold footDefMatch at h
    split at h
    · exact absurd h (by simp)
    next hb =>
    split at h
    · exact absurd h (by simp)
    next s1 hstrip =>
    split at h
    · exact absurd h (by simp)
    next hcap =>
    split at h
    · exact absurd h (by simp)
    next c s3 hdrop =>
    split at h
    next hc =>
      subst hc
      split at h
      · exact absurd h (by simp)
      next c2 s5 hsp =>
      split at h
      next hc2 =>
        subst hc2
        have hpair := Option.some.inj h
        rw [Prod.ext_iff] at hpair
        obtain ⟨hcapeq, hresteq⟩ := hpair
        simp only at hcapeq hresteq
        subst hresteq
        refine ⟨hb, ?_, ?_, s3.takeWhile isPySpace, ?_, ?_⟩
        · rw [← hcapeq]; exact hcap
        · intro d hdmem
          rw [← hcapeq] at hdmem
          have hd := List.mem_takeWhile_imp hdmem
          exact of_decide_eq_true hd
        · intro d hdmem
          exact List.mem_takeWhile_imp hdmem
        · have hs1 : s = "[^".data ++ s1 := (stripLit_eq_some ("[^".data) s s1).mp hstrip
          have hsplit1 : s1 = cap ++ ']' :: s3 := by
            rw [← hcapeq, ← hdrop]
            exact (List.takeWhile_append_dropWhile _ _).symm
          have hsplit2 : s3 = s3.takeWhile isPySpace ++ ':' :: s5 := by
            rw [← hsp]
            exact (List.takeWhile_append_dropWhile _ _).symm
          rw [hs1, hsplit1, ← hsplit2]
          rfl
      · exact absurd h (by simp)
    · exact absurd h (by simp)
  · intro ⟨hb, hcapne, hcapmem, ws, hws, hs⟩
    subst hs
    unfold footDefMatch
    rw [if_neg hb]
    have hstrip : stripLit ("[^".data) ('[' :: '^' :: (cap ++ ']' :: (ws ++ ':' :: rest)))
        = some (cap ++ ']' :: (ws ++ ':' :: rest)) :=
      (stripLit_eq_some _ _ _).mpr rfl
    rw [hstrip]
    dsimp only
    have hsplit := takeWhile_prefix_exact (fun c => decide (c ≠ ']'))
      cap (ws ++ ':' :: rest) ']' (fun c hc => decide_eq_true (hcapmem c hc)) (by simp)
    rw [hsplit.1, hsplit.2]
    rw [if_neg hcapne]
    dsimp only
    rw [if_pos rfl]
    have hsp := takeWhile_prefix_exact isPySpace ws rest ':' hws (by rfl)
    rw [hsp.2]
    dsimp only
    rw [if_pos rfl]

/-! ### Claim theorems -/

/-- C9: line-count preservation — for every input, the footnote transformer,
the eqref transformer, and the Label Relabeler each return a sequence with
exactly as many lines as the input; transformations never merge, split,
insert, or delete lines. -/
theorem line_count_preserved (lines : List (List Char)) :
    (makeFootnotes lines).1.length = lines.length ∧
    (makeEqrefs lines).1.length = lines.length ∧
    ∀ t1 t2, (relabelTags lines t1 t2).length = lines.length := by
  refine ⟨?_, ?_, fun t1 t2 => relabelTags_length lines t1 t2⟩
  · show ((mfRelabeled lines).map renderFootLine).length = lines.length
    rw [List.length_map]
    unfold mfRelabeled
    rw [relabelTags_length]
    unfold mfCanon
    rw [List.length_map]
  · show ((meRelabeled lines).map renderEqLine).length = lines.length
    rw [List.length_map]
    unfold meRelabeled
    rw [relabelTags_length]
    unfold meCanon
    rw [List.length_map]

/-- C4 counterexample: with the reference-tag occurrences `a`, `a`, `b` the
map built by the relabeler binds `a` to "2" (its occurrence counter counts
every occurrence and a repeated label is overwritten, not kept at its first
assignment) and `b` to "3", so no label at all receives "1" and the assigned
integers are not gap-free. -/
theorem label_map_first_assignment_cex :
    dlookup (labelMapOf toFootTag dupLabelLines) ("a".data) = some ("2".data) ∧
    dlookup (labelMapOf toFootTag dupLabelLines) ("b".data) = some ("3".data) ∧
    dlookup (labelMapOf toFootTag dupLabelLines) ("a".data) ≠ some ("1".data) := by
  decide

/-- C4 amended: the label map binds each label to one plus the zero-based
scan position of its LAST occurrence among all tag1 occurrences (the counter
advances on every occurrence and a repeated label's binding is overwritten);
when no label repeats this is exactly the consecutive assignment 1, 2, ... in
first-appearance order. -/
theorem label_map_last_occurrence (t1 : List Char) (lines : List (List Char))
    (l : List Char) :
    dlookup (labelMapOf t1 lines) l =
      (lastIdx (scanLabels t1 lines) l).map (fun i => natToStr (i + 1)) := by
  unfold labelMapOf
  rw [labelMapOf_eq_fold t1 lines (0, [])]
  rw [foldl_assign_lookup]
  cases h : lastIdx (scanLabels t1 lines) l with
  | some i => simp
  | none => simp [dlookup]

/-- C1 counterexample: in `exDoc` the footnote definition appearing earliest
is `b`, yet after relabeling the definition labels in document order are
["2", "1"], so the earliest definition does not receive label "1" — labels
are not assigned in definition order. -/
theorem relabel_not_by_definition_order_cex :
    (mfFootnotes exDoc).head? ≠ some ("1".data) := by decide

/-- C1 amended: the footnote relabeling step assigns sequential integer
labels in order of first appearance of the REFERENCE tag (`TO_FOOTNOTE`, the
scan tag of the `relabel_tags` call), regardless of definition order: when no
reference label repeats, the i-th reference label (0-based) is mapped to the
string of i+1. -/
theorem relabel_by_reference_order (lines : List (List Char))
    (h : (scanLabels toFootTag (mfCanon lines)).Nodup) (i : Nat)
    (hi : i < (scanLabels toFootTag (mfCanon lines)).length) :
    dlookup (labelMapOf toFootTag (mfCanon lines))
        ((scanLabels toFootTag (mfCanon lines)).get ⟨i, hi⟩) =
      some (natToStr (i + 1)) := by
  rw [label_map_last_occurrence]
  rw [lastIdx_get_of_nodup _ h i hi]
  rfl

/-- Witness for the amended C1 theorem at `exDoc`: the reference labels are
`a`, `b` (no repeats) and the first one is mapped to "1". -/
theorem relabel_by_reference_order_w :
    (scanLabels toFootTag (mfCanon exDoc)).Nodup ∧
    dlookup (labelMapOf toFootTag (mfCanon exDoc))
        ((scanLabels toFootTag (mfCanon exDoc)).get ⟨0, by decide⟩) =
      some (natToStr 1) :=
  ⟨by decide, relabel_by_reference_order exDoc (by decide) 0 (by decide)⟩

/-- C2 counterexample: for definitions in source order `[^b]:`, `[^a]:` with
references `[^a]`, `[^b]`, an `OutOfOrderDefinition` error IS reported
(contradicting the claim that none is). -/
theorem swapped_defs_claim_cex :
    ("Wrongly ordered footnotes: (2, 1)".data) ∈ (makeFootnotes exDoc).2 := by
  decide

/-- C2 amended: on `exDoc` the transformer relabels `a` to "1" and `b` to
"2" (reference order, not definition order), so the definition-order label
pair is (2, 1), descending, and exactly the out-of-order error for that pair
is reported. -/
theorem swapped_defs_behavior :
    makeFootnotes exDoc =
      ([ "<a name=\\\"cite_ref-1\\\"></a>[<sup>[1]</sup>](#cite_note-1)".data,
         "<a name=\\\"cite_ref-2\\\"></a>[<sup>[2]</sup>](#cite_note-2)".data,
         "<a name=\\\"cite_note-2\\\"></a>2.&nbsp;[^](#cite_ref-2) B".data,
         "<a name=\\\"cite_note-1\\\"></a>1.&nbsp;[^](#cite_ref-1) A".data],
       [ "Wrongly ordered footnotes: (2, 1)".data]) := by decide

/-- C3 counterexample: a document consisting only of the reference `[^x]`
is NOT returned byte-identical — the reference is relabeled and rendered. -/
theorem only_refs_not_unchanged_cex :
    (makeFootnotes refsOnlyDoc).1 ≠ refsOnlyDoc := by decide

/-- C3 amended: on a document with only references and no definitions the
relabeler's scan tag (`TO_FOOTNOTE`) does find occurrences, so relabeling and
rendering do happen: `[^x]` becomes the rendered HTML reference with label
"1", and the unresolved-reference error names the relabeled label "1", not
`x`.  (The no-occurrence short-circuit instead applies when there are no
references.) -/
theorem only_refs_behavior :
    makeFootnotes refsOnlyDoc =
      ([ "<a name=\\\"cite_ref-1\\\"></a>[<sup>[1]</sup>](#cite_note-1)".data],
       [ "Footnotes not found: 1".data]) := by decide

/-- C5 counterexample: `tagRefDoc` produces no errors on the first pass, yet
feeding the first pass's output back in raises a new error. -/
theorem second_pass_new_error_cex :
    (processDocument tagRefDoc).2 = [] ∧
    (processDocument ((processDocument tagRefDoc).1)).2 ≠ [] := by decide

/-- C5 amended: a second pass is not error-free in general even when the
first pass reported no errors: on `tagRefDoc` (a footnote reference inside a
`\tag{...}` argument) the second pass returns exactly the same lines
(changed == false) but newly reports `Footnotes not referenced: 1`, because
the first pass's equation-tag stage swallowed the rendered footnote
reference into the tag label. -/
theorem second_pass_same_lines_new_error :
    (processDocument tagRefDoc).2 = [] ∧
    (processDocument ((processDocument tagRefDoc).1)).1 =
      (processDocument tagRefDoc).1 ∧
    (processDocument ((processDocument tagRefDoc).1)).2 =
      [ "Footnotes not referenced: 1".data] := by decide

/-- C6 counterexample: with two references to the undefined label `b`, no
error names `b` — the reference is relabeled before validation. -/
theorem unresolved_named_original_cex :
    ("Footnotes not found: b".data) ∉ (makeFootnotes twoRefsDoc).2 := by decide

/-- C6 amended: with two references to undefined `b`, the label is first
relabeled (the second occurrence overwrites, so `b` becomes "2"); the error
list contains exactly one `UnresolvedReference` entry, naming the relabeled
label "2" once, together with a `DuplicateReference` entry for it. -/
theorem unresolved_named_relabeled :
    (makeFootnotes twoRefsDoc).2 =
      [ "Footnotes not found: 2".data,
        "Duplicated references of footnotes: 2".data] := by decide

/-- C7 counterexample: with `\tag{1}` appearing twice, no error names the
label `1` — the tag label is relabeled before validation. -/
theorem dup_tag_named_original_cex :
    ("Duplicated tags: 1".data) ∉ (makeEqrefs twoTagsDoc).2 := by decide

/-- C7 amended: with `\tag{1}` twice, the duplicated label is renumbered to
the index of its last occurrence ("2") and exactly one `DuplicateDefinition`
error is reported, naming the relabeled label "2". -/
theorem dup_tag_named_relabeled :
    makeEqrefs twoTagsDoc =
      ([ "\\\\tag\x7b2\x7d".data, "\\\\tag\x7b2\x7d".data],
       [ "Duplicated tags: 2".data]) := by decide

/-- Witness for C8 at `exDoc`: the descending adjacent definition pair (2, 1)
exists, so the out-of-order error line is reported. -/
theorem out_of_order_iff_w : wrongMsg (mfWrong exDoc) ∈ mfErrors exDoc :=
  (out_of_order_iff exDoc).1.mp (by decide)

/-- Witness for C10: the matcher accepts `[^a] :x` (whitespace between the
bracket and the colon, no preceding backtick), and its decomposition exists. -/
theorem footnote_def_pattern_w :
    ("a".data : List Char) ≠ [] ∧
    ∃ ws, (∀ c ∈ ws, isPySpace c = true) ∧
      ("[^a] :x".data : List Char) =
        '[' :: '^' :: ("a".data ++ ']' :: (ws ++ ':' :: "x".data)) := by
  have h := (footnote_def_pattern none ("[^a] :x".data) ("a".data) ("x".data)).mp
    (by decide)
  exact ⟨h.2.1, h.2.2.2⟩
